import Mathlib

/-
Shallow embedding of `src/utility/stddev.H` (canu).

Conventions of the embedding:
* C++ `double` is modelled as `ℝ`.
* The packed 32-bit field `_nn` of class `stdDev` is a natural number with
  the invariant `_nn < 2^32`; `_nn & 0x80000000` (the finalized flag) is
  `Nat.testBit _nn 31`, and `_nn & 0x7fffffff` (the count) is `_nn % 2^31`.
* A `fprintf(stderr, ...), exit(1)` failure branch is modelled by an
  `Option` result, `none` standing for the fatal termination.
* The dynamically grown, zero-filled `uint64 *_histogram` array is modelled
  as a total function `ℕ → ℕ`: the constructor zero-fills the array and
  `resizeArray(..., resizeArray_clearNew)` zero-fills every newly
  allocated slot, so a slot that was never written holds 0.  The
  `_histogramAlloc` capacity bookkeeping has no observable effect beyond
  that and is dropped.
* `std::sort` on a `vector<TT>` is modelled by `List.insertionSort (· ≤ ·)`
  (a sorted rearrangement of the values; stability is irrelevant because
  the elements are plain values).
-/

/-- Online mean and std.dev calculation, class `stdDev` of `stddev.H`
(Welford).  Fields `_mn` (mean), `_sn` ("sum of variances") and the packed
count/flag word `_nn`. -/
structure stdDev where
  _mn : ℝ
  _sn : ℝ
  _nn : ℕ

/-- Test `_nn & 0x80000000`: the finalized flag. -/
def stdDev.isFinalized (s : stdDev) : Bool :=
  s._nn.testBit 31

/-- Accessor `size()`: `_nn & 0x7fffffff`, the sample count. -/
def stdDev.size (s : stdDev) : ℕ :=
  s._nn % 2 ^ 31

/-- Accessor `mean()`. -/
def stdDev.mean (s : stdDev) : ℝ :=
  s._mn

/-- Method `insert(val)`.  `none` models the two `exit(1)` branches
(full counter, already finalized). -/
noncomputable def stdDev.insert (s : stdDev) (val : ℝ) : Option stdDev :=
  let m0 := s._mn
  let s0 := s._sn
  let n0 := s._nn + 1
  if s._nn = 0x7fffffff then none
  else if s._nn.testBit 31 then none
  else
    let m1 := m0 + (val - m0) / (n0 : ℝ)
    some { _mn := m1, _sn := s0 + (val - m0) * (val - m1), _nn := n0 }

/-- Method `remove(val)`.  `none` models the two `exit(1)` branches
(no data, already finalized).  The locals `n0`, `m0`, `s0` are computed
before the checks, exactly as in the source; `_nn - 1` is harmless there
because the `_nn == 0` case exits before the assignment. -/
noncomputable def stdDev.remove (s : stdDev) (val : ℝ) : Option stdDev :=
  let n0 := s._nn - 1
  let m0 : ℝ := if n0 = 0 then 0 else ((s._nn : ℝ) * s._mn - val) / (n0 : ℝ)
  let s0 := s._sn - (val - m0) * (val - s._mn)
  if s._nn = 0 then none
  else if s._nn.testBit 31 then none
  else some { _mn := m0, _sn := s0, _nn := n0 }

/-- Accessor `variance()`. -/
noncomputable def stdDev.variance (s : stdDev) : ℝ :=
  if s._nn.testBit 31 then s._sn * s._sn
  else if s._nn < 2 then 0 else s._sn / ((s._nn - 1 : ℕ) : ℝ)

/-- Accessor `stddev()`. -/
noncomputable def stdDev.stddev (s : stdDev) : ℝ :=
  if s._nn.testBit 31 then s._sn else Real.sqrt s.variance

/-- Method `finalize()`: stores the standard deviation in `_sn` and sets
the flag bit `_nn |= 0x80000000`. -/
noncomputable def stdDev.finalize (s : stdDev) : stdDev :=
  { _mn := s._mn, _sn := s.stddev, _nn := s._nn ||| 2 ^ 31 }

/-- Loop body of the free function `computeMode` (over `TT = int`,
modelled as `ℤ`).  Arguments: remaining input, `modeCnt`, `modeVal`,
`modeTmpCnt`, `modeTmpVal`.  On a value change the source sets
`modeTmpCnt = 1` and then runs the unconditional `modeTmpCnt++`, hence
the literal `2`; on a match only the `++` runs. -/
def computeModeLoop : List ℤ → ℕ → ℤ → ℕ → ℤ → ℤ
  | [], modeCnt, modeVal, modeTmpCnt, modeTmpVal =>
    if modeCnt < modeTmpCnt then modeTmpVal else modeVal
  | x :: rest, modeCnt, modeVal, modeTmpCnt, modeTmpVal =>
    if x ≠ modeTmpVal then
      if modeCnt < modeTmpCnt then
        computeModeLoop rest modeTmpCnt modeTmpVal 2 x
      else
        computeModeLoop rest modeCnt modeVal 2 x
    else
      computeModeLoop rest modeCnt modeVal (modeTmpCnt + 1) modeTmpVal

/-- Free function `computeMode(dist, mode, isSorted)`, returning `mode`.
All four scan variables start at 0, as in the source. -/
def computeMode (dist : List ℤ) (isSorted : Bool) : ℤ :=
  if dist = [] then 0
  else
    let d := if isSorted then dist else List.insertionSort (· ≤ ·) dist
    computeModeLoop d 0 0 0 0

/-- Maximal runs of equal consecutive values of a list, starting from a
current run `(v, c)`; a spec-side helper for stating the mode claim. -/
def runsAux : List ℤ → ℤ → ℕ → List (ℤ × ℕ)
  | [], v, c => [(v, c)]
  | x :: rest, v, c => if x = v then runsAux rest v (c + 1) else (v, c) :: runsAux rest x 1

/-- Maximal runs of equal consecutive values of a list, as
(value, length) pairs. -/
def runs : List ℤ → List (ℤ × ℕ)
  | [] => []
  | x :: rest => runsAux rest x 1

/-- Pick the better of a current best run and a candidate run: only a
strictly longer candidate replaces the current best. -/
def bestRun (p r : ℤ × ℕ) : ℤ × ℕ :=
  if p.2 < r.2 then r else p

/-- Modelled from the spec: "the mode is the value of the longest run;
the first maximal run encountered wins ties (strict greater-than
comparison)".  Scanning the runs in order, a run replaces the current
best only when strictly longer. -/
def specModeFirstMaximalRun (d : List ℤ) : ℤ :=
  ((runs d).foldl bestRun (0, 0)).1

/-- Proof-side mirror of the `computeMode` scan: the runs as scored by
the loop, where a run entered via the reset branch is scored
length + 1. -/
def scoredRuns : List ℤ → ℤ → ℕ → List (ℤ × ℕ)
  | [], v, c => [(v, c)]
  | x :: rest, v, c => if x = v then scoredRuns rest v (c + 1) else (v, c) :: scoredRuns rest x 2

/-- Histogram statistics engine, class `histogramStatistics` of
`stddev.H`. -/
@[ext]
structure histogramStatistics where
  _finalized : Bool
  _histogramMax : ℕ
  _histogram : ℕ → ℕ
  _numObjs : ℕ
  _mean : ℝ
  _stddev : ℝ
  _mode : ℕ
  _median : ℕ
  _mad : ℕ

/-- Constructor `histogramStatistics()`: zero-filled histogram, nothing
seen yet, statistics cleared. -/
def histogramStatistics.init : histogramStatistics :=
  { _finalized := false
    _histogramMax := 0
    _histogram := fun _ => 0
    _numObjs := 0
    _mean := 0
    _stddev := 0
    _mode := 0
    _median := 0
    _mad := 0 }

/-- Method `add(data, count)`: bump the bucket at `data`, update the
high-water mark, mark the cache dirty. -/
def histogramStatistics.add (s : histogramStatistics) (data : ℕ) (count : ℕ) :
    histogramStatistics :=
  { s with
    _histogramMax := if s._histogramMax < data then data else s._histogramMax
    _histogram := fun v => if v = data then s._histogram v + count else s._histogram v
    _finalized := false }

/-- Method `clearStatistics()`: zero the six cached derived values,
touching nothing else. -/
def histogramStatistics.clearStatistics (s : histogramStatistics) : histogramStatistics :=
  { s with _numObjs := 0, _mean := 0, _stddev := 0, _mode := 0, _median := 0, _mad := 0 }

/-- Median-finding loop of `finalizeData()` (used for both `_median` and
`_mad`): starting from the running sum `acc` at index `ii`, accumulate
bucket counts until the sum reaches `half`, then answer that index; if
the loop runs past `maxI` without reaching `half`, the accumulated sum
itself is left in the variable. -/
def medianScanGo (hist : ℕ → ℕ) (half : ℕ) : ℕ → ℕ → ℕ → ℕ
  | 0, acc, _ => acc
  | rem + 1, acc, ii =>
    if half ≤ acc + hist ii then ii
    else medianScanGo hist half rem (acc + hist ii) (ii + 1)

/-- Median-finding loop entry point: the loop runs `ii` from `ii₀` while
`ii ≤ maxI`, i.e. for `maxI + 1 - ii₀` iterations. -/
def medianScan (hist : ℕ → ℕ) (maxI half acc ii : ℕ) : ℕ :=
  medianScanGo hist half (maxI + 1 - ii) acc ii

/-- Mode-finding loop of `finalizeData()`: scan indices 0..maxI upward,
replacing the candidate only on a strictly greater frequency. -/
def modeScan (hist : ℕ → ℕ) (maxI : ℕ) : ℕ :=
  (List.range (maxI + 1)).foldl (fun mode ii => if hist mode < hist ii then ii else mode) 0

/-- The absolute deviation `|ii - median|` as computed inside
`finalizeData()`. -/
def madDeviation (median ii : ℕ) : ℕ :=
  if ii < median then median - ii else ii - median

/-- The scratch histogram `maddata` of absolute deviations from the
median built inside `finalizeData()` (indexed by deviation). -/
def madData (hist : ℕ → ℕ) (maxI median : ℕ) : ℕ → ℕ :=
  fun d => ∑ ii ∈ Finset.range (maxI + 1),
    if madDeviation median ii = d then hist ii else 0

/-- Method `finalizeData()`: no-op when not dirty, otherwise recompute
count, mean, stddev, mode, median and MAD from the histogram, in source
order, and set `_finalized`. -/
noncomputable def histogramStatistics.finalizeData (s : histogramStatistics) :
    histogramStatistics :=
  if s._finalized then s
  else
    let numObjs := ∑ ii ∈ Finset.range (s._histogramMax + 1), s._histogram ii
    let meanSum : ℝ :=
      ∑ ii ∈ Finset.range (s._histogramMax + 1), (ii : ℝ) * (s._histogram ii : ℝ)
    let mean : ℝ := if 1 < numObjs then meanSum / (numObjs : ℝ) else meanSum
    let stdSum : ℝ :=
      ∑ ii ∈ Finset.range (s._histogramMax + 1),
        (s._histogram ii : ℝ) * ((ii : ℝ) - mean) * ((ii : ℝ) - mean)
    let stddev : ℝ :=
      if 1 < numObjs then Real.sqrt (stdSum / ((numObjs - 1 : ℕ) : ℝ)) else stdSum
    let mode := modeScan s._histogram s._histogramMax
    let median := medianScan s._histogram s._histogramMax (numObjs / 2) 0 0
    let mad := medianScan (madData s._histogram s._histogramMax median)
      s._histogramMax (numObjs / 2) 0 0
    { s with
      _finalized := true
      _numObjs := numObjs
      _mean := mean
      _stddev := stddev
      _mode := mode
      _median := median
      _mad := mad }

/-- Accessor `numberOfObjects()`: finalizes, then reads the cache.  The
mutation of `this` is modelled by returning the updated state with the
value. -/
noncomputable def histogramStatistics.numberOfObjects (s : histogramStatistics) :
    histogramStatistics × ℕ :=
  (s.finalizeData, s.finalizeData._numObjs)

/-- Accessor `mean()`: finalizes, then reads the cache. -/
noncomputable def histogramStatistics.mean (s : histogramStatistics) :
    histogramStatistics × ℝ :=
  (s.finalizeData, s.finalizeData._mean)

/-- Accessor `stddev()`: finalizes, then reads the cache. -/
noncomputable def histogramStatistics.stddev (s : histogramStatistics) :
    histogramStatistics × ℝ :=
  (s.finalizeData, s.finalizeData._stddev)

/-- Accessor `median()`: finalizes, then reads the cache. -/
noncomputable def histogramStatistics.median (s : histogramStatistics) :
    histogramStatistics × ℕ :=
  (s.finalizeData, s.finalizeData._median)

/-- Accessor `mad()`: finalizes, then reads the cache. -/
noncomputable def histogramStatistics.mad (s : histogramStatistics) :
    histogramStatistics × ℕ :=
  (s.finalizeData, s.finalizeData._mad)

/-- Accessor `histogram(ii)`: reads the raw bucket directly, with no
call to `finalizeData()`. -/
def histogramStatistics.histogram (s : histogramStatistics) (ii : ℕ) :
    histogramStatistics × ℕ :=
  (s, s._histogram ii)

/-- Accessor `histogramMax()`: reads the high-water mark directly, with
no call to `finalizeData()`. -/
def histogramStatistics.histogramMax (s : histogramStatistics) :
    histogramStatistics × ℕ :=
  (s, s._histogramMax)

/-- Feed a list of `(value, count)` pairs through `add`, left to
right. -/
def histogramStatistics.addPairs (s : histogramStatistics) (l : List (ℕ × ℕ)) :
    histogramStatistics :=
  l.foldl (fun t p => t.add p.1 p.2) s

/-- The multiset of unit samples described by a list of
`(value, count)` pairs. -/
def expandPairs (l : List (ℕ × ℕ)) : Multiset ℕ :=
  (l.map (fun p => Multiset.replicate p.2 p.1)).sum
/-- Bit 31 of a word below `2^32` is set exactly when the word is at least `2^31`. -/
lemma testBit31_eq (n : ℕ) (h : n < 2 ^ 32) : n.testBit 31 = decide (2 ^ 31 ≤ n) := by
  rw [Nat.testBit_to_div_mod]
  rcases Nat.lt_or_ge n (2 ^ 31) with h1 | h1
  · have : n / 2 ^ 31 = 0 := Nat.div_eq_of_lt h1
    simp [this]
    omega
  · have h2 : n / 2 ^ 31 = 1 := by omega
    simp [h2]
    omega

/-- Claim C6: after `finalize()`, `stddev()` returns exactly the value `stddev()` would have returned just before finalize, and `variance()` returns the square of that value. -/
theorem c6_finalize_freezes_stddev (s : stdDev) :
    s.finalize.stddev = s.stddev ∧ s.finalize.variance = s.stddev * s.stddev := by
  have hb : (s._nn ||| 2 ^ 31).testBit 31 = true := by
    simp only [Nat.testBit_or, Bool.or_eq_true]
    right
    decide
  constructor
  · show stdDev.stddev _ = _
    rw [stdDev.stddev]
    simp only [stdDev.finalize, hb, if_true]
  · show stdDev.variance _ = _
    rw [stdDev.variance]
    simp only [stdDev.finalize, hb, if_true]

/-- Claim C7: `insert` fails fatally if and only if the sample count equals `2^31 - 1` or the estimator is finalized, and `remove` fails fatally if and only if the count is zero or the estimator is finalized; in all other cases both operations succeed. -/
theorem c7_insert_remove_failure (s : stdDev) (v : ℝ) (h : s._nn < 2 ^ 32) :
    (s.insert v = none ↔ (s.size = 2 ^ 31 - 1 ∨ s.isFinalized = true)) ∧
    (s.remove v = none ↔ (s.size = 0 ∨ s.isFinalized = true)) := by
  have hb := testBit31_eq s._nn h
  rw [stdDev.insert, stdDev.remove, stdDev.size, stdDev.isFinalized, hb]
  simp only [decide_eq_true_eq]
  constructor
  · split_ifs with h1 h2 <;> simp <;> omega
  · split_ifs with h1 h2 <;> simp <;> omega

/-- Claim C3 (amended): for every non-finalized, non-full estimator state holding at least one sample, `insert(v)` followed immediately by `remove(v)` restores the whole state (mean, S, count) exactly, hence in particular mean, variance and count. -/
theorem c3_insert_remove_inverse (s : stdDev) (v : ℝ)
    (h32 : s._nn < 2 ^ 32) (hfin : s.isFinalized = false)
    (hfull : s._nn ≠ 2 ^ 31 - 1) (hpos : 0 < s._nn) :
    (s.insert v).bind (fun t => t.remove v) = some s := by
  obtain ⟨m, sn, nn⟩ := s
  simp only [stdDev.isFinalized] at hfin h32 hfull hpos
  rw [testBit31_eq nn h32] at hfin
  simp only [decide_eq_false_iff_not, not_le] at hfin
  have hbit : nn.testBit 31 = false := by
    rw [testBit31_eq nn h32]
    simp
    exact hfin
  have hbit1 : (nn + 1).testBit 31 = false := by
    rw [testBit31_eq (nn + 1) (by omega)]
    simp
    omega
  simp only [stdDev.insert, stdDev.remove]
  rw [if_neg (show ¬ nn = 0x7fffffff by omega), hbit]
  simp only [Bool.false_eq_true, if_false, Option.some_bind]
  rw [if_neg (show ¬ nn + 1 = 0 by omega), hbit1]
  simp only [Bool.false_eq_true, if_false, Option.some.injEq]
  have hstep : nn + 1 - 1 = nn := by omega
  rw [hstep, if_neg (show ¬ nn = 0 by omega)]
  have hc : (nn : ℝ) ≠ 0 := Nat.cast_ne_zero.mpr (by omega)
  have hc1 : ((nn : ℝ) + 1) ≠ 0 := by positivity
  have hcast : ((nn + 1 : ℕ) : ℝ) = (nn : ℝ) + 1 := by push_cast; ring
  have hmean : ((nn + 1 : ℕ) : ℝ) * (m + (v - m) / ((nn + 1 : ℕ) : ℝ)) - v = (nn : ℝ) * m := by
    rw [hcast]
    field_simp
    ring
  have hm0 : (((nn + 1 : ℕ) : ℝ) * (m + (v - m) / ((nn + 1 : ℕ) : ℝ)) - v) / (nn : ℝ) = m := by
    rw [hmean]
    field_simp
  simp only [stdDev.mk.injEq]
  refine ⟨hm0, ?_, trivial⟩
  rw [hm0]
  ring

/-- Witness for claim C3, at the state (mean 2, S 5, count 3) and value 7. -/
theorem c3_witness :
    (stdDev.mk 2 5 3)._nn < 2 ^ 32 ∧ (stdDev.mk 2 5 3).isFinalized = false ∧
    (stdDev.mk 2 5 3)._nn ≠ 2 ^ 31 - 1 ∧ 0 < (stdDev.mk 2 5 3)._nn ∧
    ((stdDev.mk 2 5 3).insert 7).bind (fun t => t.remove 7) = some (stdDev.mk 2 5 3) :=
  ⟨by norm_num, by decide, by norm_num, by norm_num,
   c3_insert_remove_inverse (stdDev.mk 2 5 3) 7 (by norm_num) (by decide)
     (by norm_num) (by norm_num)⟩

/-- Counterexample to claim C3 as stated: from the seeded state (mean 3, S 0, count 0), `insert(1)` followed by `remove(1)` yields the state (0, 0, 0) and not the original state, because `remove` resets the mean to 0 when the count returns to zero. -/
theorem c3_counterexample :
    ((stdDev.mk 3 0 0).insert 1).bind (fun t => t.remove 1) = some (stdDev.mk 0 0 0) ∧
    ((stdDev.mk 3 0 0).insert 1).bind (fun t => t.remove 1) ≠ some (stdDev.mk 3 0 0) := by
  have hb : Nat.testBit 0 31 = false := by decide
  have hb1 : Nat.testBit 1 31 = false := by decide
  have h1 : ((stdDev.mk 3 0 0).insert 1).bind (fun t => t.remove 1) = some (stdDev.mk 0 0 0) := by
    simp only [stdDev.insert, stdDev.remove, hb, hb1]
    norm_num [stdDev.mk.injEq]
    exact fun hcon => absurd hcon (by decide)
  refine ⟨h1, ?_⟩
  rw [h1]
  simp only [ne_eq, Option.some.injEq, stdDev.mk.injEq]
  intro hcon
  have := hcon.1
  norm_num at this

/-- Witness for claim C7, at the freshly constructed estimator and value 1. -/
theorem c7_witness :
    (stdDev.mk 0 0 0)._nn < 2 ^ 32 ∧
    (((stdDev.mk 0 0 0).insert 1 = none ↔
        ((stdDev.mk 0 0 0).size = 2 ^ 31 - 1 ∨ (stdDev.mk 0 0 0).isFinalized = true)) ∧
     ((stdDev.mk 0 0 0).remove 1 = none ↔
        ((stdDev.mk 0 0 0).size = 0 ∨ (stdDev.mk 0 0 0).isFinalized = true))) :=
  ⟨by norm_num, c7_insert_remove_failure (stdDev.mk 0 0 0) 1 (by norm_num)⟩

/-- Invariant of the median-finding loop: started at index `ii` with the running sum of the buckets below `ii`, all partial sums so far below `half`, and enough mass left to reach `half`, the loop stops within its iteration budget at the first index whose cumulative sum reaches `half`. -/
lemma medianScanGo_spec (hist : ℕ → ℕ) (half : ℕ) :
    ∀ (rem acc ii : ℕ), 1 ≤ rem →
    acc = ∑ j ∈ Finset.range ii, hist j →
    (∀ j < ii, ∑ k ∈ Finset.range (j + 1), hist k < half) →
    half ≤ acc + ∑ j ∈ Finset.range rem, hist (ii + j) →
    medianScanGo hist half rem acc ii ≤ ii + rem - 1 ∧
    half ≤ ∑ k ∈ Finset.range (medianScanGo hist half rem acc ii + 1), hist k ∧
    (∀ j < medianScanGo hist half rem acc ii,
      ∑ k ∈ Finset.range (j + 1), hist k < half) := by
  intro rem
  induction rem with
  | zero => omega
  | succ r ih =>
    intro acc ii _ hacc hprev htot
    rw [medianScanGo]
    by_cases hbrk : half ≤ acc + hist ii
    · rw [if_pos hbrk]
      refine ⟨by omega, ?_, hprev⟩
      rw [Finset.sum_range_succ, ← hacc]
      exact hbrk
    · rw [if_neg hbrk]
      have hr : 1 ≤ r := by
        rcases Nat.eq_zero_or_pos r with h0 | h1
        · subst h0
          simp at htot
          omega
        · exact h1
      have hacc' : acc + hist ii = ∑ j ∈ Finset.range (ii + 1), hist j := by
        rw [Finset.sum_range_succ, ← hacc]
      have hprev' : ∀ j < ii + 1, ∑ k ∈ Finset.range (j + 1), hist k < half := by
        intro j hj
        rcases Nat.lt_or_ge j ii with hji | hji
        · exact hprev j hji
        · have : j = ii := by omega
          subst this
          rw [← hacc']
          omega
      have htot' : half ≤ acc + hist ii + ∑ j ∈ Finset.range r, hist (ii + 1 + j) := by
        have hsplit : ∑ j ∈ Finset.range (r + 1), hist (ii + j) =
            (∑ j ∈ Finset.range r, hist (ii + (j + 1))) + hist (ii + 0) := by
          exact Finset.sum_range_succ' (fun j => hist (ii + j)) r
        have hre : ∑ j ∈ Finset.range r, hist (ii + (j + 1)) =
            ∑ j ∈ Finset.range r, hist (ii + 1 + j) := by
          refine Finset.sum_congr rfl (fun j _ => ?_)
          congr 1
          omega
        rw [hsplit, hre] at htot
        simp only [Nat.add_zero] at htot
        omega
      have := ih (acc + hist ii) (ii + 1) hr hacc' hprev' htot'
      refine ⟨by omega, this.2.1, this.2.2⟩

/-- Specification of the median-finding loop from its entry point: whenever `half` is at most the total bucket mass, the loop answers the smallest index at which the cumulative bucket frequency reaches `half`, and that index is at most `maxI`. -/
lemma medianScan_spec (hist : ℕ → ℕ) (maxI half : ℕ)
    (h : half ≤ ∑ j ∈ Finset.range (maxI + 1), hist j) :
    medianScan hist maxI half 0 0 ≤ maxI ∧
    half ≤ ∑ k ∈ Finset.range (medianScan hist maxI half 0 0 + 1), hist k ∧
    (∀ j < medianScan hist maxI half 0 0,
      ∑ k ∈ Finset.range (j + 1), hist k < half) := by
  have hgo := medianScanGo_spec hist half (maxI + 1) 0 0 (by omega) (by simp)
    (by omega) (by simpa using h)
  rw [medianScan]
  simp only [Nat.sub_zero]
  exact ⟨by omega, hgo.2.1, hgo.2.2⟩

/-- Lemma: `finalizeData` always leaves the engine finalized. -/
lemma finalizeData_finalized (s : histogramStatistics) :
    s.finalizeData._finalized = true := by
  rw [histogramStatistics.finalizeData]
  split_ifs with hf
  · exact hf
  · rfl

/-- Lemma: on a dirty engine, `finalizeData` computes `_median` by the median scan with threshold `numObjs / 2`. -/
lemma finalizeData_median (s : histogramStatistics) (h : s._finalized = false) :
    s.finalizeData._median = medianScan s._histogram s._histogramMax
      ((∑ j ∈ Finset.range (s._histogramMax + 1), s._histogram j) / 2) 0 0 := by
  rw [histogramStatistics.finalizeData, h]
  rfl

/-- Lemma: on a dirty engine, `finalizeData` computes `_mode` by the upward mode scan. -/
lemma finalizeData_mode (s : histogramStatistics) (h : s._finalized = false) :
    s.finalizeData._mode = modeScan s._histogram s._histogramMax := by
  rw [histogramStatistics.finalizeData, h]
  rfl

/-- Lemma: on a dirty engine, `finalizeData` computes `_numObjs` as the total bucket mass. -/
lemma finalizeData_numObjs (s : histogramStatistics) (h : s._finalized = false) :
    s.finalizeData._numObjs = ∑ j ∈ Finset.range (s._histogramMax + 1), s._histogram j := by
  rw [histogramStatistics.finalizeData, h]
  rfl

/-- Claim C4: for every dirty, non-empty histogram state, the median computed by the engine is the smallest index at which the cumulative bucket frequency, scanned upward from index 0, reaches at least half (integer division) of the total count. -/
theorem c4_median_least (s : histogramStatistics) (hdirty : s._finalized = false)
    (_hpos : 0 < ∑ j ∈ Finset.range (s._histogramMax + 1), s._histogram j) :
    s.finalizeData._median ≤ s._histogramMax ∧
    (∑ j ∈ Finset.range (s._histogramMax + 1), s._histogram j) / 2 ≤
      ∑ k ∈ Finset.range (s.finalizeData._median + 1), s._histogram k ∧
    (∀ j < s.finalizeData._median,
      ∑ k ∈ Finset.range (j + 1), s._histogram k <
        (∑ i ∈ Finset.range (s._histogramMax + 1), s._histogram i) / 2) := by
  rw [finalizeData_median s hdirty]
  exact medianScan_spec s._histogram s._histogramMax _ (Nat.div_le_self _ 2)

/-- Claim C5: during the MAD computation inside `finalizeData`, the absolute deviation from the median of every occupied bucket is strictly below `maddatamax = _histogramMax + 1`, so the out-of-bounds diagnostic branch and the assertion behind it are unreachable. -/
theorem c5_mad_deviation_bounded (s : histogramStatistics) (hdirty : s._finalized = false)
    (ii : ℕ) (hii : ii ≤ s._histogramMax) (_hpos : 0 < s._histogram ii) :
    madDeviation s.finalizeData._median ii < s._histogramMax + 1 := by
  have hmed : s.finalizeData._median ≤ s._histogramMax := by
    rw [finalizeData_median s hdirty]
    exact (medianScan_spec s._histogram s._histogramMax _ (Nat.div_le_self _ 2)).1
  rw [madDeviation]
  split_ifs <;> omega

/-- Unfolding of the mode scan by its last step. -/
lemma modeScan_succ (hist : ℕ → ℕ) (maxI : ℕ) :
    modeScan hist (maxI + 1) =
      if hist (modeScan hist maxI) < hist (maxI + 1) then maxI + 1
      else modeScan hist maxI := by
  rw [modeScan, modeScan, List.range_succ, List.foldl_append]
  simp

/-- Specification of the mode scan: it answers an index in range holding the maximum frequency, and every smaller index has a strictly smaller frequency (so the smallest maximising index wins). -/
lemma modeScan_spec (hist : ℕ → ℕ) : ∀ maxI,
    modeScan hist maxI ≤ maxI ∧
    (∀ j ≤ maxI, hist j ≤ hist (modeScan hist maxI)) ∧
    (∀ j < modeScan hist maxI, hist j < hist (modeScan hist maxI)) := by
  intro maxI
  induction maxI with
  | zero =>
    have h0 : modeScan hist 0 = 0 := by
      simp [modeScan, List.range_succ]
    rw [h0]
    refine ⟨le_refl 0, ?_, ?_⟩
    · intro j hj
      have : j = 0 := by omega
      subst this
      exact le_refl _
    · intro j hj
      omega
  | succ n ih =>
    rw [modeScan_succ]
    by_cases hlt : hist (modeScan hist n) < hist (n + 1)
    · rw [if_pos hlt]
      refine ⟨le_refl _, ?_, ?_⟩
      · intro j hj
        rcases Nat.lt_or_ge j (n + 1) with h1 | h1
        · exact le_of_lt (lt_of_le_of_lt (ih.2.1 j (by omega)) hlt)
        · have : j = n + 1 := by omega
          subst this
          exact le_refl _
      · intro j hj
        exact lt_of_le_of_lt (ih.2.1 j (by omega)) hlt
    · rw [if_neg hlt]
      refine ⟨by omega, ?_, ih.2.2⟩
      intro j hj
      rcases Nat.lt_or_ge j (n + 1) with h1 | h1
      · exact ih.2.1 j (by omega)
      · have : j = n + 1 := by omega
        subst this
        omega

/-- Claim C8: the mode computed by the engine is the smallest bucket index achieving the maximum frequency over the occupied range; a tie never displaces the earlier candidate. -/
theorem c8_mode_least_argmax (s : histogramStatistics) (hdirty : s._finalized = false) :
    s.finalizeData._mode ≤ s._histogramMax ∧
    (∀ j ≤ s._histogramMax, s._histogram j ≤ s._histogram s.finalizeData._mode) ∧
    (∀ j < s.finalizeData._mode, s._histogram j < s._histogram s.finalizeData._mode) := by
  rw [finalizeData_mode s hdirty]
  exact modeScan_spec s._histogram s._histogramMax

/-- Witness for claim C4, at the histogram with one object each at 1, 2, 3, 4: the median is 2, the lower median. -/
theorem c4_witness :
    ((((histogramStatistics.init.add 1 1).add 2 1).add 3 1).add 4 1)._finalized = false ∧
    0 < ∑ j ∈ Finset.range (((((histogramStatistics.init.add 1 1).add 2 1).add 3 1).add 4 1)._histogramMax + 1),
        ((((histogramStatistics.init.add 1 1).add 2 1).add 3 1).add 4 1)._histogram j ∧
    ((((histogramStatistics.init.add 1 1).add 2 1).add 3 1).add 4 1).finalizeData._median = 2 ∧
    (((((histogramStatistics.init.add 1 1).add 2 1).add 3 1).add 4 1).finalizeData._median ≤
        ((((histogramStatistics.init.add 1 1).add 2 1).add 3 1).add 4 1)._histogramMax ∧
      (∑ j ∈ Finset.range (((((histogramStatistics.init.add 1 1).add 2 1).add 3 1).add 4 1)._histogramMax + 1),
          ((((histogramStatistics.init.add 1 1).add 2 1).add 3 1).add 4 1)._histogram j) / 2 ≤
        ∑ k ∈ Finset.range (((((histogramStatistics.init.add 1 1).add 2 1).add 3 1).add 4 1).finalizeData._median + 1),
          ((((histogramStatistics.init.add 1 1).add 2 1).add 3 1).add 4 1)._histogram k ∧
      (∀ j < ((((histogramStatistics.init.add 1 1).add 2 1).add 3 1).add 4 1).finalizeData._median,
        ∑ k ∈ Finset.range (j + 1),
            ((((histogramStatistics.init.add 1 1).add 2 1).add 3 1).add 4 1)._histogram k <
          (∑ i ∈ Finset.range (((((histogramStatistics.init.add 1 1).add 2 1).add 3 1).add 4 1)._histogramMax + 1),
            ((((histogramStatistics.init.add 1 1).add 2 1).add 3 1).add 4 1)._histogram i) / 2)) :=
  ⟨by decide, by decide, by decide,
   c4_median_least ((((histogramStatistics.init.add 1 1).add 2 1).add 3 1).add 4 1)
     (by decide) (by decide)⟩

/-- Witness for claim C5, at the histogram with three objects at 0 and three at 5, bucket 5. -/
theorem c5_witness :
    ((histogramStatistics.init.add 0 3).add 5 3)._finalized = false ∧
    5 ≤ ((histogramStatistics.init.add 0 3).add 5 3)._histogramMax ∧
    0 < ((histogramStatistics.init.add 0 3).add 5 3)._histogram 5 ∧
    madDeviation ((histogramStatistics.init.add 0 3).add 5 3).finalizeData._median 5 <
      ((histogramStatistics.init.add 0 3).add 5 3)._histogramMax + 1 :=
  ⟨by decide, by decide, by decide,
   c5_mad_deviation_bounded ((histogramStatistics.init.add 0 3).add 5 3) (by decide)
     5 (by decide) (by decide)⟩

/-- Witness for claim C8, at the histogram with three objects at 0 and three at 5: the mode resolves to 0. -/
theorem c8_witness :
    ((histogramStatistics.init.add 0 3).add 5 3)._finalized = false ∧
    ((histogramStatistics.init.add 0 3).add 5 3).finalizeData._mode = 0 ∧
    (((histogramStatistics.init.add 0 3).add 5 3).finalizeData._mode ≤
        ((histogramStatistics.init.add 0 3).add 5 3)._histogramMax ∧
      (∀ j ≤ ((histogramStatistics.init.add 0 3).add 5 3)._histogramMax,
        ((histogramStatistics.init.add 0 3).add 5 3)._histogram j ≤
          ((histogramStatistics.init.add 0 3).add 5 3)._histogram
            ((histogramStatistics.init.add 0 3).add 5 3).finalizeData._mode) ∧
      (∀ j < ((histogramStatistics.init.add 0 3).add 5 3).finalizeData._mode,
        ((histogramStatistics.init.add 0 3).add 5 3)._histogram j <
          ((histogramStatistics.init.add 0 3).add 5 3)._histogram
            ((histogramStatistics.init.add 0 3).add 5 3).finalizeData._mode)) :=
  ⟨by decide, by decide,
   c8_mode_least_argmax ((histogramStatistics.init.add 0 3).add 5 3) (by decide)⟩

/-- Claim C2 (amended): the statistics accessors `numberOfObjects`, `mean`, `stddev`, `median` and `mad` all force finalization first, recomputing the cached statistics from the histogram when the cache is dirty; the accessors `histogram(ii)` and `histogramMax` read the raw data directly and do not finalize. -/
theorem c2_accessors_amended (s : histogramStatistics) (ii : ℕ)
    (h : s._finalized = false) :
    s.numberOfObjects = (s.finalizeData, s.finalizeData._numObjs) ∧
    s.mean = (s.finalizeData, s.finalizeData._mean) ∧
    s.stddev = (s.finalizeData, s.finalizeData._stddev) ∧
    s.median = (s.finalizeData, s.finalizeData._median) ∧
    s.mad = (s.finalizeData, s.finalizeData._mad) ∧
    s.finalizeData._finalized = true ∧
    s.finalizeData._numObjs = (∑ j ∈ Finset.range (s._histogramMax + 1), s._histogram j) ∧
    s.histogram ii = (s, s._histogram ii) ∧
    s.histogramMax = (s, s._histogramMax) :=
  ⟨rfl, rfl, rfl, rfl, rfl, finalizeData_finalized s, finalizeData_numObjs s h, rfl, rfl⟩

/-- Witness for claim C2, at the dirty engine holding one object at 3. -/
theorem c2_witness :
    (histogramStatistics.init.add 3 1)._finalized = false ∧
    ((histogramStatistics.init.add 3 1).numberOfObjects =
        ((histogramStatistics.init.add 3 1).finalizeData,
          (histogramStatistics.init.add 3 1).finalizeData._numObjs) ∧
      (histogramStatistics.init.add 3 1).mean =
        ((histogramStatistics.init.add 3 1).finalizeData,
          (histogramStatistics.init.add 3 1).finalizeData._mean) ∧
      (histogramStatistics.init.add 3 1).stddev =
        ((histogramStatistics.init.add 3 1).finalizeData,
          (histogramStatistics.init.add 3 1).finalizeData._stddev) ∧
      (histogramStatistics.init.add 3 1).median =
        ((histogramStatistics.init.add 3 1).finalizeData,
          (histogramStatistics.init.add 3 1).finalizeData._median) ∧
      (histogramStatistics.init.add 3 1).mad =
        ((histogramStatistics.init.add 3 1).finalizeData,
          (histogramStatistics.init.add 3 1).finalizeData._mad) ∧
      (histogramStatistics.init.add 3 1).finalizeData._finalized = true ∧
      (histogramStatistics.init.add 3 1).finalizeData._numObjs =
        (∑ j ∈ Finset.range ((histogramStatistics.init.add 3 1)._histogramMax + 1),
          (histogramStatistics.init.add 3 1)._histogram j) ∧
      (histogramStatistics.init.add 3 1).histogram 0 =
        (histogramStatistics.init.add 3 1, (histogramStatistics.init.add 3 1)._histogram 0) ∧
      (histogramStatistics.init.add 3 1).histogramMax =
        (histogramStatistics.init.add 3 1, (histogramStatistics.init.add 3 1)._histogramMax)) :=
  ⟨by decide, c2_accessors_amended (histogramStatistics.init.add 3 1) 0 (by decide)⟩

/-- Counterexample to claim C2 as stated: on a dirty engine, the `histogram(ii)` accessor returns with the state unchanged — still unfinalized, its stale cache untouched (cached count 0 against true count 1) — so it does not force a recomputation. -/
theorem c2_counterexample :
    ((histogramStatistics.init.add 3 1).histogram 3).1._finalized = false ∧
    ((histogramStatistics.init.add 3 1).histogram 3).1 = histogramStatistics.init.add 3 1 ∧
    ((histogramStatistics.init.add 3 1).histogramMax).1._finalized = false ∧
    (histogramStatistics.init.add 3 1)._numObjs = 0 ∧
    (histogramStatistics.init.add 3 1).finalizeData._numObjs = 1 :=
  ⟨by decide, rfl, by decide, by decide, by decide⟩

/-- Claim C10: `clearStatistics` zeroes exactly the six cached derived-statistic fields and leaves the histogram contents, the high-water mark and the finalized flag unchanged; consequently, on a finalized state, `finalizeData` is a no-op afterwards, every statistics accessor returns the zeroed values without recomputing, and only the next `add` marks the cache dirty again. -/
theorem c10_clearStatistics_frame (s : histogramStatistics) (h : s._finalized = true)
    (d c : ℕ) :
    s.clearStatistics._histogram = s._histogram ∧
    s.clearStatistics._histogramMax = s._histogramMax ∧
    s.clearStatistics._finalized = s._finalized ∧
    s.clearStatistics._numObjs = 0 ∧
    s.clearStatistics._mean = 0 ∧
    s.clearStatistics._stddev = 0 ∧
    s.clearStatistics._mode = 0 ∧
    s.clearStatistics._median = 0 ∧
    s.clearStatistics._mad = 0 ∧
    s.clearStatistics.finalizeData = s.clearStatistics ∧
    s.clearStatistics.numberOfObjects = (s.clearStatistics, 0) ∧
    s.clearStatistics.mean = (s.clearStatistics, 0) ∧
    s.clearStatistics.stddev = (s.clearStatistics, 0) ∧
    s.clearStatistics.median = (s.clearStatistics, 0) ∧
    s.clearStatistics.mad = (s.clearStatistics, 0) ∧
    (s.clearStatistics.add d c)._finalized = false := by
  have hc : s.clearStatistics._finalized = true := h
  have hfd : s.clearStatistics.finalizeData = s.clearStatistics := by
    simp [histogramStatistics.finalizeData, hc]
  refine ⟨rfl, rfl, rfl, rfl, rfl, rfl, rfl, rfl, rfl, hfd, ?_, ?_, ?_, ?_, ?_, rfl⟩
  · rw [histogramStatistics.numberOfObjects, hfd]
    rfl
  · rw [histogramStatistics.mean, hfd]
    rfl
  · rw [histogramStatistics.stddev, hfd]
    rfl
  · rw [histogramStatistics.median, hfd]
    rfl
  · rw [histogramStatistics.mad, hfd]
    rfl

/-- Witness for claim C10, at the finalized engine holding one object at 2. -/
theorem c10_witness :
    ((histogramStatistics.init.add 2 1).finalizeData)._finalized = true ∧
    (((histogramStatistics.init.add 2 1).finalizeData).clearStatistics._histogram =
        ((histogramStatistics.init.add 2 1).finalizeData)._histogram ∧
      ((histogramStatistics.init.add 2 1).finalizeData).clearStatistics._histogramMax =
        ((histogramStatistics.init.add 2 1).finalizeData)._histogramMax ∧
      ((histogramStatistics.init.add 2 1).finalizeData).clearStatistics._finalized =
        ((histogramStatistics.init.add 2 1).finalizeData)._finalized ∧
      ((histogramStatistics.init.add 2 1).finalizeData).clearStatistics._numObjs = 0 ∧
      ((histogramStatistics.init.add 2 1).finalizeData).clearStatistics._mean = 0 ∧
      ((histogramStatistics.init.add 2 1).finalizeData).clearStatistics._stddev = 0 ∧
      ((histogramStatistics.init.add 2 1).finalizeData).clearStatistics._mode = 0 ∧
      ((histogramStatistics.init.add 2 1).finalizeData).clearStatistics._median = 0 ∧
      ((histogramStatistics.init.add 2 1).finalizeData).clearStatistics._mad = 0 ∧
      ((histogramStatistics.init.add 2 1).finalizeData).clearStatistics.finalizeData =
        ((histogramStatistics.init.add 2 1).finalizeData).clearStatistics ∧
      ((histogramStatistics.init.add 2 1).finalizeData).clearStatistics.numberOfObjects =
        (((histogramStatistics.init.add 2 1).finalizeData).clearStatistics, 0) ∧
      ((histogramStatistics.init.add 2 1).finalizeData).clearStatistics.mean =
        (((histogramStatistics.init.add 2 1).finalizeData).clearStatistics, 0) ∧
      ((histogramStatistics.init.add 2 1).finalizeData).clearStatistics.stddev =
        (((histogramStatistics.init.add 2 1).finalizeData).clearStatistics, 0) ∧
      ((histogramStatistics.init.add 2 1).finalizeData).clearStatistics.median =
        (((histogramStatistics.init.add 2 1).finalizeData).clearStatistics, 0) ∧
      ((histogramStatistics.init.add 2 1).finalizeData).clearStatistics.mad =
        (((histogramStatistics.init.add 2 1).finalizeData).clearStatistics, 0) ∧
      (((histogramStatistics.init.add 2 1).finalizeData).clearStatistics.add 1 1)._finalized = false) :=
  ⟨by decide, c10_clearStatistics_frame ((histogramStatistics.init.add 2 1).finalizeData)
    (by decide) 1 1⟩

/-- Unfolding of `addPairs` over a leading pair. -/
lemma addPairs_cons (s : histogramStatistics) (p : ℕ × ℕ) (l : List (ℕ × ℕ)) :
    s.addPairs (p :: l) = (s.add p.1 p.2).addPairs l := rfl

/-- Unfolding of `expandPairs` over a leading pair. -/
lemma expandPairs_cons (p : ℕ × ℕ) (l : List (ℕ × ℕ)) :
    expandPairs (p :: l) = Multiset.replicate p.2 p.1 + expandPairs l := by
  rw [expandPairs, expandPairs, List.map_cons, List.sum_cons]

/-- After feeding a pair list, each bucket has grown by the multiplicity of its value in the described multiset. -/
lemma addPairs_histogram : ∀ (l : List (ℕ × ℕ)) (s : histogramStatistics) (v : ℕ),
    (s.addPairs l)._histogram v = s._histogram v + (expandPairs l).count v := by
  intro l
  induction l with
  | nil =>
    intro s v
    simp [histogramStatistics.addPairs, expandPairs]
  | cons p l ih =>
    intro s v
    rw [addPairs_cons, ih, expandPairs_cons]
    simp only [Multiset.count_add, Multiset.count_replicate, histogramStatistics.add]
    split_ifs <;> omega

/-- After feeding a pair list, the high-water mark is the running maximum of the added values. -/
lemma addPairs_histogramMax : ∀ (l : List (ℕ × ℕ)) (s : histogramStatistics),
    (s.addPairs l)._histogramMax = (l.map Prod.fst).foldl max s._histogramMax := by
  intro l
  induction l with
  | nil => intro s; rfl
  | cons p l ih =>
    intro s
    rw [addPairs_cons, ih, List.map_cons, List.foldl_cons]
    have hmax : (s.add p.1 p.2)._histogramMax = max s._histogramMax p.1 := by
      simp only [histogramStatistics.add]
      split_ifs <;> omega
    rw [hmax]

/-- Folding `max` from an arbitrary seed equals taking `max` of the seed with the fold from 0. -/
lemma foldl_max_shift : ∀ (xs : List ℕ) (a : ℕ), xs.foldl max a = max a (xs.foldl max 0) := by
  intro xs
  induction xs with
  | nil => intro a; simp
  | cons x xs ih =>
    intro a
    rw [List.foldl_cons, List.foldl_cons, ih (max a x), ih (max 0 x)]
    omega

/-- The supremum of a nonempty replicated multiset is the replicated value. -/
lemma sup_replicate_pos (n a : ℕ) (h : 0 < n) : (Multiset.replicate n a).sup = a := by
  induction n with
  | zero => omega
  | succ k ih =>
    rw [Multiset.replicate_succ, Multiset.sup_cons]
    rcases Nat.eq_zero_or_pos k with h0 | hk
    · subst h0
      simp
    · rw [ih hk]
      simp

/-- For pair lists with positive counts, the supremum of the described multiset equals the running maximum of the listed values. -/
lemma expandPairs_sup : ∀ (l : List (ℕ × ℕ)), (∀ p ∈ l, 0 < p.2) →
    (expandPairs l).sup = (l.map Prod.fst).foldl max 0 := by
  intro l
  induction l with
  | nil =>
    intro _
    simp [expandPairs]
  | cons p l ih =>
    intro h
    rw [expandPairs_cons, Multiset.sup_add,
      ih (fun q hq => h q (List.mem_cons_of_mem p hq)),
      sup_replicate_pos _ _ (h p (List.mem_cons_self p l)),
      List.map_cons, List.foldl_cons,
      foldl_max_shift (l.map Prod.fst) (max 0 p.1)]
    omega

/-- Feeding pairs never touches the six cached statistics fields. -/
lemma addPairs_stats : ∀ (l : List (ℕ × ℕ)) (s : histogramStatistics),
    (s.addPairs l)._numObjs = s._numObjs ∧ (s.addPairs l)._mean = s._mean ∧
    (s.addPairs l)._stddev = s._stddev ∧ (s.addPairs l)._mode = s._mode ∧
    (s.addPairs l)._median = s._median ∧ (s.addPairs l)._mad = s._mad := by
  intro l
  induction l with
  | nil => intro s; exact ⟨rfl, rfl, rfl, rfl, rfl, rfl⟩
  | cons p l ih => intro s; exact ih (s.add p.1 p.2)

/-- Feeding pairs keeps a dirty engine dirty. -/
lemma addPairs_finalized_false : ∀ (l : List (ℕ × ℕ)) (s : histogramStatistics),
    s._finalized = false → (s.addPairs l)._finalized = false := by
  intro l
  induction l with
  | nil => intro s h; exact h
  | cons p l ih => intro s _; exact ih (s.add p.1 p.2) rfl

/-- Two pair lists with positive counts describing the same multiset of unit samples drive the fresh engine into the same state. -/
lemma addPairs_init_eq (l1 l2 : List (ℕ × ℕ))
    (h1 : ∀ p ∈ l1, 0 < p.2) (h2 : ∀ p ∈ l2, 0 < p.2)
    (he : expandPairs l1 = expandPairs l2) :
    histogramStatistics.init.addPairs l1 = histogramStatistics.init.addPairs l2 := by
  ext1
  · rw [addPairs_finalized_false l1 histogramStatistics.init rfl,
      addPairs_finalized_false l2 histogramStatistics.init rfl]
  · rw [addPairs_histogramMax l1, addPairs_histogramMax l2]
    show (l1.map Prod.fst).foldl max 0 = (l2.map Prod.fst).foldl max 0
    rw [← expandPairs_sup l1 h1, ← expandPairs_sup l2 h2, he]
  · funext v
    rw [addPairs_histogram l1, addPairs_histogram l2, he]
  · rw [(addPairs_stats l1 _).1, (addPairs_stats l2 _).1]
  · rw [(addPairs_stats l1 _).2.1, (addPairs_stats l2 _).2.1]
  · rw [(addPairs_stats l1 _).2.2.1, (addPairs_stats l2 _).2.2.1]
  · rw [(addPairs_stats l1 _).2.2.2.1, (addPairs_stats l2 _).2.2.2.1]
  · rw [(addPairs_stats l1 _).2.2.2.2.1, (addPairs_stats l2 _).2.2.2.2.1]
  · rw [(addPairs_stats l1 _).2.2.2.2.2, (addPairs_stats l2 _).2.2.2.2.2]

/-- Claim C9: feeding a finite multiset of samples through `add` in any order and under any grouping of repeated values into (value, count) pairs with positive counts yields exactly the same mean, stddev, mode, median and MAD as any other such presentation, in particular as adding each occurrence one at a time with count 1. -/
theorem c9_add_order_grouping_invariant (l1 l2 : List (ℕ × ℕ))
    (h1 : ∀ p ∈ l1, 0 < p.2) (h2 : ∀ p ∈ l2, 0 < p.2)
    (he : expandPairs l1 = expandPairs l2) :
    (histogramStatistics.init.addPairs l1).finalizeData._mean =
      (histogramStatistics.init.addPairs l2).finalizeData._mean ∧
    (histogramStatistics.init.addPairs l1).finalizeData._stddev =
      (histogramStatistics.init.addPairs l2).finalizeData._stddev ∧
    (histogramStatistics.init.addPairs l1).finalizeData._mode =
      (histogramStatistics.init.addPairs l2).finalizeData._mode ∧
    (histogramStatistics.init.addPairs l1).finalizeData._median =
      (histogramStatistics.init.addPairs l2).finalizeData._median ∧
    (histogramStatistics.init.addPairs l1).finalizeData._mad =
      (histogramStatistics.init.addPairs l2).finalizeData._mad := by
  rw [addPairs_init_eq l1 l2 h1 h2 he]
  exact ⟨rfl, rfl, rfl, rfl, rfl⟩

/-- Witness for claim C9: the grouped presentation [(3,2),(1,1)] against the unit-at-a-time presentation [(1,1),(3,1),(3,1)] of the multiset containing 1 once and 3 twice. -/
theorem c9_witness :
    (∀ p ∈ [((3:ℕ),(2:ℕ)),(1,1)], 0 < p.2) ∧
    (∀ p ∈ [((1:ℕ),(1:ℕ)),(3,1),(3,1)], 0 < p.2) ∧
    expandPairs [(3,2),(1,1)] = expandPairs [(1,1),(3,1),(3,1)] ∧
    ((histogramStatistics.init.addPairs [(3,2),(1,1)]).finalizeData._mean =
       (histogramStatistics.init.addPairs [(1,1),(3,1),(3,1)]).finalizeData._mean ∧
     (histogramStatistics.init.addPairs [(3,2),(1,1)]).finalizeData._stddev =
       (histogramStatistics.init.addPairs [(1,1),(3,1),(3,1)]).finalizeData._stddev ∧
     (histogramStatistics.init.addPairs [(3,2),(1,1)]).finalizeData._mode =
       (histogramStatistics.init.addPairs [(1,1),(3,1),(3,1)]).finalizeData._mode ∧
     (histogramStatistics.init.addPairs [(3,2),(1,1)]).finalizeData._median =
       (histogramStatistics.init.addPairs [(1,1),(3,1),(3,1)]).finalizeData._median ∧
     (histogramStatistics.init.addPairs [(3,2),(1,1)]).finalizeData._mad =
       (histogramStatistics.init.addPairs [(1,1),(3,1),(3,1)]).finalizeData._mad) :=
  ⟨by decide, by decide, by decide,
   c9_add_order_grouping_invariant [(3,2),(1,1)] [(1,1),(3,1),(3,1)]
     (by decide) (by decide) (by decide)⟩

/-- The `computeMode` loop equals a fold of the strictly-improving best-run step over the runs as scored by the loop. -/
lemma computeModeLoop_eq_foldl : ∀ (d : List ℤ) (mc : ℕ) (mv : ℤ) (tc : ℕ) (tv : ℤ),
    computeModeLoop d mc mv tc tv = ((scoredRuns d tv tc).foldl bestRun (mv, mc)).1 := by
  intro d
  induction d with
  | nil =>
    intro mc mv tc tv
    simp only [computeModeLoop, scoredRuns, List.foldl_cons, List.foldl_nil, bestRun]
    split_ifs with h
    · rfl
    · rfl
  | cons x rest ih =>
    intro mc mv tc tv
    simp only [computeModeLoop, scoredRuns]
    by_cases hx : x = tv
    · rw [if_neg (not_not_intro hx), if_pos hx]
      exact ih mc mv (tc + 1) tv
    · rw [if_pos hx, if_neg hx, List.foldl_cons]
      by_cases hcnt : mc < tc
      · rw [if_pos hcnt]
        have hbest : bestRun (mv, mc) (tv, tc) = (tv, tc) := by
          rw [bestRun, if_pos (show ((mv, mc) : ℤ × ℕ).2 < ((tv, tc) : ℤ × ℕ).2 from hcnt)]
        rw [hbest]
        exact ih tc tv 2 x
      · rw [if_neg hcnt]
        have hbest : bestRun (mv, mc) (tv, tc) = (mv, mc) := by
          rw [bestRun, if_neg (show ¬ ((mv, mc) : ℤ × ℕ).2 < ((tv, tc) : ℤ × ℕ).2 from hcnt)]
        rw [hbest]
        exact ih mc mv 2 x

/-- Starting one above the true count, the loop-scored runs are the true runs with every length shifted up by one. -/
lemma scoredRuns_shift : ∀ (d : List ℤ) (v : ℤ) (c : ℕ),
    scoredRuns d v (c + 1) = (runsAux d v c).map (fun r => (r.1, r.2 + 1)) := by
  intro d
  induction d with
  | nil => intro v c; rfl
  | cons x rest ih =>
    intro v c
    simp only [scoredRuns, runsAux]
    by_cases hx : x = v
    · rw [if_pos hx, if_pos hx]
      exact ih v (c + 1)
    · rw [if_neg hx, if_neg hx, List.map_cons]
      refine congrArg₂ List.cons rfl ?_
      have h1 := ih x 1
      simpa using h1

/-- Run lengths collected from a positive seed are positive. -/
lemma runsAux_pos : ∀ (d : List ℤ) (v : ℤ) (c : ℕ), 0 < c →
    ∀ r ∈ runsAux d v c, 0 < r.2 := by
  intro d
  induction d with
  | nil =>
    intro v c hc r hr
    simp only [runsAux, List.mem_singleton] at hr
    subst hr
    simpa using hc
  | cons x rest ih =>
    intro v c hc r hr
    simp only [runsAux] at hr
    by_cases hx : x = v
    · rw [if_pos hx] at hr
      exact ih v (c + 1) (by omega) r hr
    · rw [if_neg hx] at hr
      rcases List.mem_cons.mp hr with h1 | h1
      · subst h1
        simpa using hc
      · exact ih x 1 one_pos r h1

/-- Shifting every run length by one commutes with the best-run fold. -/
lemma foldl_bestRun_shift : ∀ (rs : List (ℤ × ℕ)) (b : ℤ × ℕ),
    (rs.map (fun r => (r.1, r.2 + 1))).foldl bestRun (b.1, b.2 + 1) =
      ((rs.foldl bestRun b).1, (rs.foldl bestRun b).2 + 1) := by
  intro rs
  induction rs with
  | nil => intro b; rfl
  | cons r rs' ih =>
    intro b
    obtain ⟨bv, bc⟩ := b
    obtain ⟨rv, rc⟩ := r
    rw [List.map_cons, List.foldl_cons, List.foldl_cons]
    have hb : bestRun ((bv, bc + 1) : ℤ × ℕ) (rv, rc + 1) =
        ((bestRun (bv, bc) (rv, rc)).1, (bestRun (bv, bc) (rv, rc)).2 + 1) := by
      by_cases hlt : bc < rc
      · rw [bestRun, bestRun,
          if_pos (show ((bv, bc + 1) : ℤ × ℕ).2 < ((rv, rc + 1) : ℤ × ℕ).2 from
            Nat.succ_lt_succ hlt),
          if_pos (show ((bv, bc) : ℤ × ℕ).2 < ((rv, rc) : ℤ × ℕ).2 from hlt)]
      · rw [bestRun, bestRun,
          if_neg (show ¬ ((bv, bc + 1) : ℤ × ℕ).2 < ((rv, rc + 1) : ℤ × ℕ).2 from
            fun hc => hlt (Nat.lt_of_succ_lt_succ hc)),
          if_neg (show ¬ ((bv, bc) : ℤ × ℕ).2 < ((rv, rc) : ℤ × ℕ).2 from hlt)]
    rw [hb]
    exact ih (bestRun (bv, bc) (rv, rc))

/-- For runs of positive length, shifting every length by one does not change the value selected by the best-run fold from the zero seed. -/
lemma foldl_bestRun_map_shift_fst (rs : List (ℤ × ℕ)) (h : ∀ r ∈ rs, 0 < r.2) :
    ((rs.map (fun r => (r.1, r.2 + 1))).foldl bestRun (0, 0)).1 =
      (rs.foldl bestRun (0, 0)).1 := by
  cases rs with
  | nil => rfl
  | cons r rs' =>
    rw [List.map_cons, List.foldl_cons, List.foldl_cons]
    have hb1 : bestRun ((0, 0) : ℤ × ℕ) (r.1, r.2 + 1) = (r.1, r.2 + 1) := by
      rw [bestRun,
        if_pos (show ((0, 0) : ℤ × ℕ).2 < ((r.1, r.2 + 1) : ℤ × ℕ).2 from Nat.succ_pos r.2)]
    have hb2 : bestRun ((0, 0) : ℤ × ℕ) r = r := by
      rw [bestRun, if_pos (show ((0, 0) : ℤ × ℕ).2 < r.2 from h r (List.mem_cons_self r rs'))]
    rw [hb1, hb2]
    have hr : r = (r.1, r.2) := rfl
    rw [hr, foldl_bestRun_shift rs' (r.1, r.2)]

/-- Claim C1 (amended): on sorted non-empty input whose first element is nonzero, `computeMode` returns the value of the first maximal run of equal consecutive elements, a later run of equal length never displacing an earlier one. (A leading run of the value 0 is scored one short by the loop initialization, which is why the first element must be nonzero.) -/
theorem c1_computeMode_first_maximal_run (x : ℤ) (rest : List ℤ) (hx : x ≠ 0)
    (_hs : (x :: rest).Chain' (· ≤ ·)) :
    computeMode (x :: rest) true = specModeFirstMaximalRun (x :: rest) := by
  have h1 : computeMode (x :: rest) true = computeModeLoop (x :: rest) 0 0 0 0 := by
    rw [computeMode, if_neg (by simp : ¬ (x :: rest) = ([] : List ℤ))]
    rfl
  have h2 : computeModeLoop (x :: rest) 0 0 0 0 = computeModeLoop rest 0 0 2 x := by
    simp only [computeModeLoop]
    rw [if_pos hx]
    exact ite_self _
  rw [h1, h2, computeModeLoop_eq_foldl, specModeFirstMaximalRun, runs]
  have h3 : scoredRuns rest x 2 = (runsAux rest x 1).map (fun r => (r.1, r.2 + 1)) := by
    have := scoredRuns_shift rest x 1
    simpa using this
  rw [h3]
  exact foldl_bestRun_map_shift_fst (runsAux rest x 1) (runsAux_pos rest x 1 one_pos)

/-- Witness for claim C1, at the sorted input [1, 1, 2]. -/
theorem c1_witness :
    ((1 : ℤ) ≠ 0) ∧ ((1 :: [1, 2] : List ℤ).Chain' (· ≤ ·)) ∧
    computeMode (1 :: [1, 2]) true = specModeFirstMaximalRun (1 :: [1, 2]) :=
  ⟨by decide, by norm_num [List.chain'_cons],
   c1_computeMode_first_maximal_run 1 [1, 2] (by decide) (by norm_num [List.chain'_cons])⟩

/-- Counterexample to claim C1 as stated: on the sequence [0, 0, 0, 5, 5, 5] `computeMode` answers 5, not 0, while the first-maximal-run rule of the spec picks 0. -/
theorem c1_counterexample :
    computeMode [0, 0, 0, 5, 5, 5] false = 5 ∧
    computeMode [0, 0, 0, 5, 5, 5] false ≠ 0 ∧
    specModeFirstMaximalRun [0, 0, 0, 5, 5, 5] = 0 :=
  ⟨by decide, by decide, by decide⟩

